import Mathlib

/-!
# Verification of the RetopoFlow editing-session engine (`rfmode/rfcontext.py`)

Shallow embedding of the session-management core of `RFContext`:
the bounded undo/redo history, the modal input dispatcher (`modal` /
`modal_main`), and the spatial-query aggregation across source meshes
(`raycast_sources_*`, `plane_intersection*_crawl`).

Modelling conventions, mirroring the Python source:

* The session state (`RFContext`) is a record.  Python in-place mutation of
  `self` becomes explicit state passing (each operation returns the updated
  record).
* `copy.deepcopy(self.rftarget)` in `_create_state` produces an independent
  copy of the target mesh; in this value-based embedding a deep copy of a
  value *is* the value, so snapshots simply store the mesh value.
* The undo/redo stacks are Python `deque`s used with `append`/`pop` on the
  right and `popleft` on the left.  They are modelled as lists with the MOST
  RECENT entry at the HEAD, so Python `append` is `::`, Python `pop()` takes
  the head, and the eviction loop `while len(undo) > undo_depth: popleft()`
  (dropping oldest entries from the far end) is `List.take undo_depth`.
* Geometry (points, normals, rays, planes, 2D points, crawl segments), mesh
  values and tool objects are opaque type parameters.  Hit distances carry a
  `LinearOrder` since the code only compares them with `<`.
* Collaborators that live outside this file's source (`RFSource` spatial
  queries from `rfmesh.py`, `Point2D_to_Ray` from `rfcontext_spaces.py`,
  `select_toggle` from `rfcontext_target.py`, the active tool's `modal`)
  are oracle functions stored in the record, matching the spec's view of
  them as opaque external collaborators.
* Purely external side effects with no session-state footprint
  (`instrument_write` text-block logging, `set_cursor`, render-cache calls
  `rewrap`/`dirty`/`replace_rfmesh`, profiler and tool lifecycle calls,
  `bpy.ops.wm.save_as_mainfile`) are noted in comments and elided.
* Python functions that end in a bare `return` return `None`; this is
  modelled as an explicit result component of type `Option Bool` whose
  value is `none` (a Python `True`/`False` would be `some true/false`).
-/

set_option linter.unusedSectionVars false

namespace RetopoFlow

/-- A single raycast / nearest-point hit `(point, normal, index, distance)`
as produced by an `RFSource` spatial query (`rfmesh.py`, external): a source
either reports no hit (all four components `None`) or a full hit. -/
structure Hit (Pt Nrm Idx D : Type) where
  p : Pt
  n : Nrm
  i : Idx
  d : D
deriving DecidableEq

/-- The per-source spatial-query interface (class `RFSource` of `rfmesh.py`,
an external collaborator per spec section 2: "SpatialIndex ... treated as
opaque").  Each source mesh is immutable for the session, so its queries are
pure functions. -/
structure RFSource (Pt Nrm Idx D Ray Plane Seg : Type) where
  raycast : Ray → Option (Hit Pt Nrm Idx D)
  raycast_all : Ray → List (Hit Pt Nrm Idx D)
  raycast_hit : Ray → Bool
  plane_intersection_crawl : Ray → Plane → List Seg
  plane_intersection_walk_crawl : Ray → Plane → List Seg
  plane_intersections_crawl : Plane → List Seg

/-- One entry of the undo/redo stacks: the dict built by
`RFContext._create_state` with keys `action`, `tool`, `rftarget`. -/
structure UndoState (Tool Mesh : Type) where
  action : String
  tool : Tool
  rftarget : Mesh
deriving DecidableEq

/-- Pointer-widget display state (`self.rfwidget`): the session only ever
calls `clear()` or `update()` on it inside `modal`/`modal_main`. -/
inductive WidgetView
  | cleared
  | updated
deriving DecidableEq

/-- Result set returned by `RFContext.modal`: `{'confirm'}`,
`{'confirm','edit mode'}`, `{'pass'}`, or the empty set (stay in modal). -/
inductive ModalResult
  | confirm
  | confirmEditMode
  | passThrough
  | stay
deriving DecidableEq

/-- The session state of class `RFContext` (`rfcontext.py`), restricted to
the fields its session-management core reads or writes.  `undo_depth` is the
class attribute (100 in the source, "set in RF settings?"); it is a plain
field here, never modified by any operation. -/
structure RFContext (Pt Nrm Idx D Ray Plane Pt2 Seg Tool Mesh : Type) where
  undo_depth : Nat
  undo : List (UndoState Tool Mesh)
  redo : List (UndoState Tool Mesh)
  tool : Tool
  rftarget : Mesh
  rfsources : List (RFSource Pt Nrm Idx D Ray Plane Seg)
  mode : String
  nav : Bool
  exit : Bool
  time_to_save : Option Int
  help_shown : Bool
  rfwidget : WidgetView
  hit_pos : Option Pt
  hit_norm : Option Nrm
  Point2D_to_Ray : Pt2 → Ray
  select_toggle : Mesh → Mesh
  tool_modal : Tool → Mesh → Mesh
  action_tool : List (String × Tool)

namespace RFContext

variable {Pt Nrm Idx D Ray Plane Pt2 Seg Tool Mesh : Type}

/-- `RFContext.set_tool(tool, forceUpdate)`: early-returns when not forced
and the tool is unchanged; otherwise stores the tool.  The tool lifecycle
calls (`start`, `update_tool_options`, `update`) and the tool-window option
updates act on the tool object and UI, not on the session fields modelled
here. -/
def set_tool [DecidableEq Tool] (ctx : RFContext Pt Nrm Idx D Ray Plane Pt2 Seg Tool Mesh)
    (tool : Tool) (forceUpdate : Bool) : RFContext Pt Nrm Idx D Ray Plane Pt2 Seg Tool Mesh :=
  if forceUpdate = false ∧ ctx.tool = tool then ctx
  else { ctx with tool := tool }

/-- `RFContext._create_state(action)`: captures the causing action, the
current tool, and a deep copy (`copy.deepcopy`) of the target mesh. -/
def create_state (ctx : RFContext Pt Nrm Idx D Ray Plane Pt2 Seg Tool Mesh)
    (action : String) : UndoState Tool Mesh :=
  { action := action, tool := ctx.tool, rftarget := ctx.rftarget }

/-- `RFContext._restore_state(state)`: replaces the target mesh with the
snapshot's copy and re-activates the snapshot's tool with
`forceUpdate=True`.  The calls `rewrap`, `dirty` and
`rftarget_draw.replace_rfmesh` invalidate render-side caches and are
external to the session fields modelled here. -/
def restore_state [DecidableEq Tool] (ctx : RFContext Pt Nrm Idx D Ray Plane Pt2 Seg Tool Mesh)
    (s : UndoState Tool Mesh) : RFContext Pt Nrm Idx D Ray Plane Pt2 Seg Tool Mesh :=
  ({ ctx with rftarget := s.rftarget }).set_tool s.tool true

/-- The Python test `repeatable and self.undo and self.undo[-1]['action'] == action`
guarding `undo_push` (the top of the Python deque, `undo[-1]`, is the head
of the model's list). -/
def undo_push_repeat (ctx : RFContext Pt Nrm Idx D Ray Plane Pt2 Seg Tool Mesh)
    (action : String) (repeatable : Bool) : Bool :=
  repeatable && (match ctx.undo with
    | [] => false
    | top :: _ => top.action == action)

/-- `RFContext.undo_push(action, repeatable=False)`: skips when repeating a
repeatable action; otherwise appends a fresh snapshot, evicts oldest entries
while the stack exceeds `undo_depth`, and clears the redo stack.
(`instrument_write` logs to an external text block.) -/
def undo_push (ctx : RFContext Pt Nrm Idx D Ray Plane Pt2 Seg Tool Mesh)
    (action : String) (repeatable : Bool) : RFContext Pt Nrm Idx D Ray Plane Pt2 Seg Tool Mesh :=
  if ctx.undo_push_repeat action repeatable then ctx
  else { ctx with
    undo := (ctx.create_state action :: ctx.undo).take ctx.undo_depth,
    redo := [] }

/-- `RFContext.undo_pop()`: bare `return` (Python `None`, modelled `none`)
when the undo stack is empty; otherwise captures the current state labelled
`"undo"` onto the redo stack, pops the most recent undo snapshot and
restores it, and again falls off the end returning `None`. -/
def undo_pop [DecidableEq Tool] (ctx : RFContext Pt Nrm Idx D Ray Plane Pt2 Seg Tool Mesh) :
    RFContext Pt Nrm Idx D Ray Plane Pt2 Seg Tool Mesh × Option Bool :=
  match ctx.undo with
  | [] => (ctx, none)
  | top :: rest =>
    (({ ctx with redo := ctx.create_state "undo" :: ctx.redo, undo := rest }).restore_state top,
      none)

/-- `RFContext.undo_cancel()`: bare `return` (`None`) when empty; otherwise
pops and restores the most recent undo snapshot without pushing the
pre-cancel state anywhere, returning `None`. -/
def undo_cancel [DecidableEq Tool] (ctx : RFContext Pt Nrm Idx D Ray Plane Pt2 Seg Tool Mesh) :
    RFContext Pt Nrm Idx D Ray Plane Pt2 Seg Tool Mesh × Option Bool :=
  match ctx.undo with
  | [] => (ctx, none)
  | top :: rest => (({ ctx with undo := rest }).restore_state top, none)

/-- `RFContext.redo_pop()`: bare `return` (`None`) when the redo stack is
empty; otherwise captures the current state labelled `"redo"` onto the undo
stack (note: WITHOUT any eviction check), pops the most recent redo snapshot
and restores it, returning `None`. -/
def redo_pop [DecidableEq Tool] (ctx : RFContext Pt Nrm Idx D Ray Plane Pt2 Seg Tool Mesh) :
    RFContext Pt Nrm Idx D Ray Plane Pt2 Seg Tool Mesh × Option Bool :=
  match ctx.redo with
  | [] => (ctx, none)
  | top :: rest =>
    (({ ctx with undo := ctx.create_state "redo" :: ctx.undo, redo := rest }).restore_state top,
      none)

end RFContext

variable {Pt Nrm Idx D Ray Plane Pt2 Seg Tool Mesh : Type}

/-- One step of the reduction loop in `raycast_sources_Ray`: the body
`if bp is None or (hp is not None and hd < bd): bp,bn,bi,bd = hp,hn,hi,hd`.
The best-so-far quad `(bp,bn,bi,bd)` is either all-`None` or a full hit, so
it is carried as an `Option Hit`; when the best-so-far is `None` the new
quad is taken unconditionally (even if it is itself a miss), and a miss
never replaces a kept hit. -/
def rayStep [LT D] [DecidableRel (α := D) (· < ·)]
    (b h : Option (Hit Pt Nrm Idx D)) : Option (Hit Pt Nrm Idx D) :=
  match b, h with
  | none, h => h
  | some bb, none => some bb
  | some bb, some hh => if hh.d < bb.d then some hh else some bb

/-- The 4-tuple `(bp, bn, bi, bd)` returned by a quad-valued aggregation. -/
def hitTuple (b : Option (Hit Pt Nrm Idx D)) :
    Option Pt × Option Nrm × Option Idx × Option D :=
  match b with
  | none => (none, none, none, none)
  | some h => (some h.p, some h.n, some h.i, some h.d)

namespace RFContext

variable {Pt Nrm Idx D Ray Plane Pt2 Seg Tool Mesh : Type}

/-- `RFContext.raycast_sources_Ray(ray)`: iterates every source, reducing
with `rayStep`, and returns the best quad. -/
def raycast_sources_Ray [LinearOrder D]
    (ctx : RFContext Pt Nrm Idx D Ray Plane Pt2 Seg Tool Mesh) (ray : Ray) :
    Option Pt × Option Nrm × Option Idx × Option D :=
  hitTuple (ctx.rfsources.foldl (fun b s => rayStep b (s.raycast ray)) none)

/-- `RFContext.raycast_sources_Ray_all(ray)`: the flattened list
comprehension `[hit for rfsource in self.rfsources for hit in rfsource.raycast_all(ray)]`. -/
def raycast_sources_Ray_all (ctx : RFContext Pt Nrm Idx D Ray Plane Pt2 Seg Tool Mesh)
    (ray : Ray) : List (Hit Pt Nrm Idx D) :=
  (ctx.rfsources.map (fun s => s.raycast_all ray)).flatten

/-- `RFContext.raycast_sources_Point2D(xy)`: the 4-tuple
`(None, None, None, None)` when `xy` is `None`, else the ray aggregation
through `Point2D_to_Ray` (external, `rfcontext_spaces.py`). -/
def raycast_sources_Point2D [LinearOrder D]
    (ctx : RFContext Pt Nrm Idx D Ray Plane Pt2 Seg Tool Mesh) (xy : Option Pt2) :
    Option Pt × Option Nrm × Option Idx × Option D :=
  match xy with
  | none => (none, none, none, none)
  | some xy => ctx.raycast_sources_Ray (ctx.Point2D_to_Ray xy)

/-- `RFContext.raycast_sources_mouse()`: `raycast_sources_Point2D` at the
pointer position carried by the resolved actions. -/
def raycast_sources_mouse [LinearOrder D]
    (ctx : RFContext Pt Nrm Idx D Ray Plane Pt2 Seg Tool Mesh) (mouse : Option Pt2) :
    Option Pt × Option Nrm × Option Idx × Option D :=
  ctx.raycast_sources_Point2D mouse

end RFContext

/-- The two syntactically different shapes `raycast_sources_Point2D_all` can
return: the literal 4-tuple `(None, None, None, None)` (the `xy is None`
branch) versus a list of hits (every other branch). -/
inductive RaycastAllResult (Pt Nrm Idx D : Type)
  | noneTuple
  | hits (l : List (Hit Pt Nrm Idx D))
deriving DecidableEq

namespace RFContext

variable {Pt Nrm Idx D Ray Plane Pt2 Seg Tool Mesh : Type}

/-- `RFContext.raycast_sources_Point2D_all(xy)`: returns the 4-tuple
`None,None,None,None` when `xy` is `None`, otherwise the list of all hits. -/
def raycast_sources_Point2D_all (ctx : RFContext Pt Nrm Idx D Ray Plane Pt2 Seg Tool Mesh)
    (xy : Option Pt2) : RaycastAllResult Pt Nrm Idx D :=
  match xy with
  | none => RaycastAllResult.noneTuple
  | some xy => RaycastAllResult.hits (ctx.raycast_sources_Ray_all (ctx.Point2D_to_Ray xy))

end RFContext

/-- One step of the reduction loop in `plane_intersection_crawl`, which in
addition to the best quad tracks the owning source `bo`; the guard is the
same as in `raycast_sources_Ray`, and `bo` is assigned together with the
quad (so a miss overwriting an all-`None` best also records its source). -/
def crawlStep [LT D] [DecidableRel (α := D) (· < ·)] (ray : Ray)
    (acc : Option (Hit Pt Nrm Idx D) × Option (RFSource Pt Nrm Idx D Ray Plane Seg))
    (s : RFSource Pt Nrm Idx D Ray Plane Seg) :
    Option (Hit Pt Nrm Idx D) × Option (RFSource Pt Nrm Idx D Ray Plane Seg) :=
  match acc.1, s.raycast ray with
  | none, h => (h, some s)
  | some bb, none => (some bb, acc.2)
  | some bb, some hh => if hh.d < bb.d then (some hh, some s) else acc

namespace RFContext

variable {Pt Nrm Idx D Ray Plane Pt2 Seg Tool Mesh : Type}

/-- `RFContext.plane_intersection_crawl(ray, plane, walk=False)`: finds the
nearest source hit along `ray` while remembering the owning source; on a
total miss (`if not bp: return []`) returns the empty list; otherwise
delegates to the owner's walk or non-walk plane-intersection routine.
The `some _, none` branch is unreachable from the fold's initial
accumulator (whenever a hit is kept an owner was recorded; see
`crawl_fold_owner_of_hit`). -/
def plane_intersection_crawl [LinearOrder D]
    (ctx : RFContext Pt Nrm Idx D Ray Plane Pt2 Seg Tool Mesh)
    (ray : Ray) (plane : Plane) (walk : Bool) : List Seg :=
  let acc := ctx.rfsources.foldl (crawlStep ray) (none, none)
  match acc.1, acc.2 with
  | none, _ => []
  | some _, some bo =>
    if walk then bo.plane_intersection_walk_crawl ray plane
    else bo.plane_intersection_crawl ray plane
  | some _, none => []

/-- `RFContext.plane_intersections_crawl(plane)`: the flattened list
comprehension over every source's own `plane_intersections_crawl`. -/
def plane_intersections_crawl (ctx : RFContext Pt Nrm Idx D Ray Plane Pt2 Seg Tool Mesh)
    (plane : Plane) : List Seg :=
  (ctx.rfsources.map (fun s => s.plane_intersections_crawl plane)).flatten

end RFContext

/-- The per-event inputs consumed by `RFContext.modal` / `modal_main`:
the resolved action set built by `_process_event` (external input resolver,
`rfcontext_actions.py`) together with the per-event answers of the other
external collaborators the modal step consults. -/
structure ModalInput (Pt2 : Type) where
  /-- `self.actions.pressed(name)`. -/
  pressed : String → Bool
  /-- `self.actions.using(name)` (`using` is unavailable as a Lean name). -/
  is_using : String → Bool
  /-- `self.actions.navigating()`. -/
  navigating : Bool
  /-- `self.actions.timer`. -/
  timer : Bool
  /-- `event.type == 'TIMER'`. -/
  event_timer : Bool
  /-- `self.actions.trackpad` (only steers the external `set_cursor`). -/
  trackpad : Bool
  /-- `self.actions.time_delta`. -/
  time_delta : Int
  /-- `self.actions.mouse` (`None` when the pointer is unmapped). -/
  mouse : Option Pt2
  /-- `self.actions.valid_mouse()`. -/
  valid_mouse : Bool
  /-- `context.user_preferences.filepaths.use_auto_save_temporary_files`. -/
  use_auto_save : Bool
  /-- `context.user_preferences.filepaths.auto_save_time` (minutes). -/
  auto_save_time : Int
  /-- whether `self.window_manager.modal(...)` returned a result containing
  `'hover'`. -/
  wm_hover : Bool
  /-- the boolean returned by `self.rfwidget.modal()`. -/
  widget_modal : Bool

namespace RFContext

variable {Pt Nrm Idx D Ray Plane Pt2 Seg Tool Mesh : Type}

/-- The first `(action, tool)` binding of `RFTool.action_tool` whose action
is pressed — the loop `for action,tool in RFTool.action_tool: if
self.actions.pressed(action): ...` of `modal_main` (a hit constructs a
fresh tool instance `tool()`, modelled as the registered tool value). -/
def findTool (bindings : List (String × Tool)) (pressed : String → Bool) : Option Tool :=
  match bindings with
  | [] => none
  | (a, t) :: rest => if pressed a then some t else findTool rest pressed

/-- `RFContext.modal_main()`, the `main`-mode handler.  Each branch of the
Python function ends in a bare `return`, so the handler never changes
`self.mode` (its caller treats a `None` result as "stay"); the model
therefore returns only the updated session.  `profiler.printout()` /
`profiler.clear()` (F2/F3) are external debug instrumentation.  The final
`self.tool and ...` test is always truthy since a session always carries a
tool. -/
def modal_main [DecidableEq Tool] (ctx : RFContext Pt Nrm Idx D Ray Plane Pt2 Seg Tool Mesh)
    (a : ModalInput Pt2) : RFContext Pt Nrm Idx D Ray Plane Pt2 Seg Tool Mesh :=
  if a.pressed "undo" then ctx.undo_pop.1
  else if a.pressed "redo" then ctx.redo_pop.1
  else if a.pressed "F2" then ctx
  else if a.pressed "F3" then ctx
  else match findTool ctx.action_tool a.pressed with
  | some t => ctx.set_tool t false
  | none =>
    if a.pressed "select all" then
      let ctx := ctx.undo_push "select all" false
      { ctx with rftarget := ctx.select_toggle ctx.rftarget }
    else
      let ctx :=
        if a.valid_mouse then { ctx with rfwidget := WidgetView.updated }
        else { ctx with rfwidget := WidgetView.cleared }
      if a.widget_modal && a.valid_mouse then
        { ctx with rftarget := ctx.tool_modal ctx.tool ctx.rftarget }
      else ctx

/-- The pointer-hit cache update at the top of `RFContext.modal`:
`self.actions.hit_pos, self.actions.hit_norm, _, _ = self.raycast_sources_mouse()`
(the cache lives on the actions object in the source; it is carried on the
session record here). -/
def modal_cache [LinearOrder D] (ctx : RFContext Pt Nrm Idx D Ray Plane Pt2 Seg Tool Mesh)
    (a : ModalInput Pt2) : RFContext Pt Nrm Idx D Ray Plane Pt2 Seg Tool Mesh :=
  { ctx with hit_pos := (ctx.raycast_sources_mouse a.mouse).1,
             hit_norm := (ctx.raycast_sources_mouse a.mouse).2.1 }

/-- The auto-backup timer block of `RFContext.modal` (guarded by
`use_auto_save_temporary_files and event.type == 'TIMER'`): refreshes or
decrements `time_to_save`; at or below zero the external
`bpy.ops.wm.save_as_mainfile` backup fires and the timer resets.
`auto_save_time` is the preference in minutes times 60. -/
def modal_autosave (ctx : RFContext Pt Nrm Idx D Ray Plane Pt2 Seg Tool Mesh)
    (a : ModalInput Pt2) : RFContext Pt Nrm Idx D Ray Plane Pt2 Seg Tool Mesh :=
  if a.use_auto_save && a.event_timer then
    let t := match ctx.time_to_save with
      | none => a.auto_save_time * 60
      | some t => t - a.time_delta
    if t ≤ 0 then { ctx with time_to_save := some (a.auto_save_time * 60) }
    else { ctx with time_to_save := some t }
  else ctx

/-- `RFContext.modal(context, event)`: one step of the session FSM.
Returns the updated session, the result set handed back to the host
(`ModalResult`), and whether the current mode's handler was invoked
(reaching `self.FSM[self.mode]()`).

Mirrored control flow: `_process_event` resolves the event into `a`; the
pointer hit is cached; reserved `window actions` / `autosave` actions
pass through; `tool help` toggles help and stays; the auto-backup timer
runs; a hover-consumed `window_manager.modal` result clears the widget and
stays (or confirms when exit was requested); a navigation action (or a
running timer while `nav` is set) releases the `navigate` action (external
input state), sets `nav`, clears the widget and passes through; a nav
end refreshes the widget; then the handler bound to the current mode runs
inside try/except — `self.FSM` holds exactly the `'main'` handler (set in
`__init__`), so any other mode raises `KeyError`, which the generic
`except` catches (`alert_user`, external) leaving the session unchanged;
`modal_main` always returns `None` so the mode never changes; finally
`done` / `exit` confirm and `edit mode` confirms with the transition
flag. -/
def modal [LinearOrder D] [DecidableEq Tool]
    (ctx : RFContext Pt Nrm Idx D Ray Plane Pt2 Seg Tool Mesh) (a : ModalInput Pt2) :
    RFContext Pt Nrm Idx D Ray Plane Pt2 Seg Tool Mesh × ModalResult × Bool :=
  let ctx := ctx.modal_cache a
  if a.is_using "window actions" then (ctx, ModalResult.passThrough, false)
  else if a.is_using "autosave" then (ctx, ModalResult.passThrough, false)
  else if a.pressed "tool help" then
    ({ ctx with help_shown := !ctx.help_shown }, ModalResult.stay, false)
  else
    let ctx := ctx.modal_autosave a
    if a.wm_hover then
      let ctx := { ctx with rfwidget := WidgetView.cleared }
      if ctx.exit then (ctx, ModalResult.confirm, false) else (ctx, ModalResult.stay, false)
    else if a.navigating || (a.timer && ctx.nav) then
      (({ ctx with nav := true, rfwidget := WidgetView.cleared }), ModalResult.passThrough, false)
    else
      let ctx := if ctx.nav then { ctx with nav := false, rfwidget := WidgetView.updated } else ctx
      let step := if ctx.mode = "main" then (ctx.modal_main a, true) else (ctx, false)
      let ctx := step.1
      if a.pressed "done" || ctx.exit then (ctx, ModalResult.confirm, step.2)
      else if a.pressed "edit mode" then (ctx, ModalResult.confirmEditMode, step.2)
      else (ctx, ModalResult.stay, step.2)

end RFContext

/-! ## Test harness for the history properties (spec section 8)

A run of editing steps: each element `(action, tool, mesh)` of the list
describes one action boundary — the session's active tool and target mesh
have reached the given values (tool switches and mutations by the active
tool) and then `undo_push(action)` runs with the default
`repeatable=False`. -/

namespace RFContext

variable {Pt Nrm Idx D Ray Plane Pt2 Seg Tool Mesh : Type} [DecidableEq Tool]

/-- The snapshot `_create_state` captures at such a step. -/
def snapOf (x : String × Tool × Mesh) : UndoState Tool Mesh :=
  { action := x.1, tool := x.2.1, rftarget := x.2.2 }

/-- Run a list of editing steps, each ending in an `undo_push`. -/
def pushSeq (ctx : RFContext Pt Nrm Idx D Ray Plane Pt2 Seg Tool Mesh)
    (L : List (String × Tool × Mesh)) : RFContext Pt Nrm Idx D Ray Plane Pt2 Seg Tool Mesh :=
  L.foldl (fun c x => ({ c with tool := x.2.1, rftarget := x.2.2 }).undo_push x.1 false) ctx

/-- `n` consecutive `undo_pop` calls. -/
def undo_popN (ctx : RFContext Pt Nrm Idx D Ray Plane Pt2 Seg Tool Mesh) (n : Nat) :
    RFContext Pt Nrm Idx D Ray Plane Pt2 Seg Tool Mesh :=
  (fun c => RFContext.undo_pop c |>.1)^[n] ctx

end RFContext

/-- One history-stack operation, for quantifying over arbitrary interleaved
sequences of the four history operations; `edit` stands for the session
state drifting between them (tool switches, mesh mutations by tools). -/
inductive HistOp (Tool Mesh : Type)
  | push (action : String) (repeatable : Bool)
  | pop
  | cancel
  | redoPop
  | edit (tool : Tool) (mesh : Mesh)

namespace RFContext

variable {Pt Nrm Idx D Ray Plane Pt2 Seg Tool Mesh : Type} [DecidableEq Tool]

/-- Apply one history operation to the session. -/
def applyHistOp (ctx : RFContext Pt Nrm Idx D Ray Plane Pt2 Seg Tool Mesh) :
    HistOp Tool Mesh → RFContext Pt Nrm Idx D Ray Plane Pt2 Seg Tool Mesh
  | HistOp.push a r => ctx.undo_push a r
  | HistOp.pop => ctx.undo_pop.1
  | HistOp.cancel => ctx.undo_cancel.1
  | HistOp.redoPop => ctx.redo_pop.1
  | HistOp.edit t m => { ctx with tool := t, rftarget := m }

/-- Run a sequence of history operations. -/
def runHistOps (ctx : RFContext Pt Nrm Idx D Ray Plane Pt2 Seg Tool Mesh)
    (ops : List (HistOp Tool Mesh)) : RFContext Pt Nrm Idx D Ray Plane Pt2 Seg Tool Mesh :=
  ops.foldl applyHistOp ctx

end RFContext

/-! ## The spec-side reduction rule of the QueryAggregator -/

/-- Modelled from the spec (section 4.3): "keep the hit with the strictly
smallest reported hit-distance" — the kept hit is replaced only by a
strictly smaller one, so on a tie the earlier hit is kept. -/
def keepMin [LinearOrder D] (kept x : Hit Pt Nrm Idx D) : Hit Pt Nrm Idx D :=
  if x.d < kept.d then x else kept

/-- Modelled from the spec (section 4.3 contract): "iterate every source,
keep the hit with the strictly smallest reported hit-distance; a source
reporting no hit never replaces a kept hit; if no source reports a hit, the
result is no hit", ties won by the first-found hit.  No-hit reports are
skipped outright; the first hit is kept and later hits replace it only when
strictly smaller. -/
def specReduce [LinearOrder D] (results : List (Option (Hit Pt Nrm Idx D))) :
    Option (Hit Pt Nrm Idx D) :=
  match results.filterMap id with
  | [] => none
  | h :: t => some (t.foldl keepMin h)

/-! ## Concrete test fixtures

A session over `Nat`-coded geometry, tools and meshes with rational hit
distances, used to evaluate the theorems on explicit inputs. -/

/-- A source whose raycast always hits at distance `dist` with index `idx`
(and whose crawl routines return the singleton segment `idx`, walk variant
`100 + idx`, so delegation is observable). -/
def srcHit (dist : ℚ) (idx : Nat) : RFSource Nat Nat Nat ℚ Nat Nat Nat where
  raycast := fun _ => some { p := 0, n := 0, i := idx, d := dist }
  raycast_all := fun _ => [{ p := 0, n := 0, i := idx, d := dist }]
  raycast_hit := fun _ => true
  plane_intersection_crawl := fun _ _ => [idx]
  plane_intersection_walk_crawl := fun _ _ => [100 + idx]
  plane_intersections_crawl := fun _ => [idx]

/-- A source that never reports a hit. -/
def srcMiss : RFSource Nat Nat Nat ℚ Nat Nat Nat where
  raycast := fun _ => none
  raycast_all := fun _ => []
  raycast_hit := fun _ => false
  plane_intersection_crawl := fun _ _ => []
  plane_intersection_walk_crawl := fun _ _ => []
  plane_intersections_crawl := fun _ => []

/-- A fresh concrete session (empty history, `main` mode, no sources). -/
def testCtx : RFContext Nat Nat Nat ℚ Nat Nat Nat Nat Nat Nat where
  undo_depth := 100
  undo := []
  redo := []
  tool := 0
  rftarget := 0
  rfsources := []
  mode := "main"
  nav := false
  exit := false
  time_to_save := none
  help_shown := false
  rfwidget := WidgetView.cleared
  hit_pos := none
  hit_norm := none
  Point2D_to_Ray := fun p => p
  select_toggle := fun m => m + 1
  tool_modal := fun _ m => m + 1
  action_tool := [("tool a", 1)]

/-- The spec's QueryAggregator test vector: three sources reporting hit
distances `{none, 5.0, 2.0}`. -/
def exCtx2 : RFContext Nat Nat Nat ℚ Nat Nat Nat Nat Nat Nat :=
  { testCtx with rfsources := [srcMiss, srcHit 5 1, srcHit 2 2] }

/-- Two sources tied at distance `5.0` (indices 1 and 2), to observe the
first-found tie-break. -/
def exCtxTie : RFContext Nat Nat Nat ℚ Nat Nat Nat Nat Nat Nat :=
  { testCtx with rfsources := [srcHit 5 1, srcHit 5 2] }

/-- Two sources that both miss. -/
def exCtxMiss : RFContext Nat Nat Nat ℚ Nat Nat Nat Nat Nat Nat :=
  { testCtx with rfsources := [srcMiss, srcMiss] }

/-- A small-capacity session (`undo_depth = 2`) to exercise eviction. -/
def testCtxD2 : RFContext Nat Nat Nat ℚ Nat Nat Nat Nat Nat Nat :=
  { testCtx with undo_depth := 2 }

/-- A session with one pushed snapshot and subsequently mutated state
(mesh 5, tool 7), for the round-trip witness. -/
def roundCtx : RFContext Nat Nat Nat ℚ Nat Nat Nat Nat Nat Nat :=
  { testCtx.undo_push "a" false with rftarget := 5, tool := 7 }

/-- A modal event that carries a navigation action and, simultaneously, the
`tool help` action and the registered tool-switch action `tool a`. -/
def navHelpInput : ModalInput Nat where
  pressed := fun s => s == "tool help" || s == "tool a"
  is_using := fun _ => false
  navigating := true
  timer := false
  event_timer := false
  trackpad := false
  time_delta := 0
  mouse := none
  valid_mouse := true
  use_auto_save := false
  auto_save_time := 0
  wm_hover := false
  widget_modal := false

/-- A modal event that carries a navigation action together with a
tool-switch action (`tool a`), and nothing that short-circuits earlier. -/
def navToolInput : ModalInput Nat where
  pressed := fun s => s == "tool a"
  is_using := fun _ => false
  navigating := true
  timer := false
  event_timer := false
  trackpad := false
  time_delta := 0
  mouse := none
  valid_mouse := true
  use_auto_save := false
  auto_save_time := 0
  wm_hover := false
  widget_modal := false

/-! ## Basic lemmas about the history operations -/

namespace RFContext

variable {Pt Nrm Idx D Ray Plane Pt2 Seg Tool Mesh : Type} [DecidableEq Tool]
variable {ctx : RFContext Pt Nrm Idx D Ray Plane Pt2 Seg Tool Mesh}

@[simp]
theorem set_tool_rftarget (t : Tool) (f : Bool) : (ctx.set_tool t f).rftarget = ctx.rftarget := by
  unfold set_tool; split <;> rfl

@[simp]
theorem set_tool_tool (t : Tool) (f : Bool) : (ctx.set_tool t f).tool = t := by
  unfold set_tool; split
  case isTrue h => exact h.2
  case isFalse h => rfl

@[simp]
theorem set_tool_undo (t : Tool) (f : Bool) : (ctx.set_tool t f).undo = ctx.undo := by
  unfold set_tool; split <;> rfl

@[simp]
theorem set_tool_redo (t : Tool) (f : Bool) : (ctx.set_tool t f).redo = ctx.redo := by
  unfold set_tool; split <;> rfl

@[simp]
theorem set_tool_undo_depth (t : Tool) (f : Bool) :
    (ctx.set_tool t f).undo_depth = ctx.undo_depth := by
  unfold set_tool; split <;> rfl

@[simp]
theorem restore_state_rftarget (s : UndoState Tool Mesh) :
    (ctx.restore_state s).rftarget = s.rftarget := by
  unfold restore_state; simp

@[simp]
theorem restore_state_tool (s : UndoState Tool Mesh) : (ctx.restore_state s).tool = s.tool := by
  unfold restore_state; simp

@[simp]
theorem restore_state_undo (s : UndoState Tool Mesh) : (ctx.restore_state s).undo = ctx.undo := by
  unfold restore_state; simp

@[simp]
theorem restore_state_redo (s : UndoState Tool Mesh) : (ctx.restore_state s).redo = ctx.redo := by
  unfold restore_state; simp

@[simp]
theorem restore_state_undo_depth (s : UndoState Tool Mesh) :
    (ctx.restore_state s).undo_depth = ctx.undo_depth := by
  unfold restore_state; simp

theorem undo_push_repeat_false (action : String) :
    ctx.undo_push_repeat action false = false := by
  unfold undo_push_repeat; simp

/-- With `repeatable=False` (the default), `undo_push` always appends. -/
theorem undo_push_false_def (action : String) :
    ctx.undo_push action false =
      { ctx with undo := (ctx.create_state action :: ctx.undo).take ctx.undo_depth,
                 redo := [] } := by
  unfold undo_push; rw [undo_push_repeat_false]; simp

@[simp]
theorem undo_push_undo_depth (action : String) (r : Bool) :
    (ctx.undo_push action r).undo_depth = ctx.undo_depth := by
  unfold undo_push; split <;> rfl

@[simp]
theorem undo_pop_snd : ctx.undo_pop.2 = none := by
  unfold undo_pop; split <;> rfl

@[simp]
theorem undo_cancel_snd : ctx.undo_cancel.2 = none := by
  unfold undo_cancel; split <;> rfl

@[simp]
theorem redo_pop_snd : ctx.redo_pop.2 = none := by
  unfold redo_pop; split <;> rfl

theorem undo_pop_cons (s : UndoState Tool Mesh) (rest : List (UndoState Tool Mesh))
    (h : ctx.undo = s :: rest) :
    ctx.undo_pop.1.rftarget = s.rftarget ∧ ctx.undo_pop.1.tool = s.tool ∧
      ctx.undo_pop.1.undo = rest ∧
      ctx.undo_pop.1.redo = ctx.create_state "undo" :: ctx.redo ∧
      ctx.undo_pop.1.undo_depth = ctx.undo_depth := by
  unfold undo_pop; rw [h]; simp

theorem redo_pop_cons (s : UndoState Tool Mesh) (rest : List (UndoState Tool Mesh))
    (h : ctx.redo = s :: rest) :
    ctx.redo_pop.1.rftarget = s.rftarget ∧ ctx.redo_pop.1.tool = s.tool ∧
      ctx.redo_pop.1.redo = rest ∧
      ctx.redo_pop.1.undo = ctx.create_state "redo" :: ctx.undo ∧
      ctx.redo_pop.1.undo_depth = ctx.undo_depth := by
  unfold redo_pop; rw [h]; simp

@[simp]
theorem undo_pop_fst_undo_depth : ctx.undo_pop.1.undo_depth = ctx.undo_depth := by
  unfold undo_pop; split <;> simp

@[simp]
theorem undo_cancel_fst_undo_depth : ctx.undo_cancel.1.undo_depth = ctx.undo_depth := by
  unfold undo_cancel; split <;> simp

@[simp]
theorem redo_pop_fst_undo_depth : ctx.redo_pop.1.undo_depth = ctx.undo_depth := by
  unfold redo_pop; split <;> simp

end RFContext

/-! ## Lemmas about the history test harness -/

namespace RFContext

variable {Pt Nrm Idx D Ray Plane Pt2 Seg Tool Mesh : Type} [DecidableEq Tool]
variable {ctx : RFContext Pt Nrm Idx D Ray Plane Pt2 Seg Tool Mesh}

theorem undo_popN_succ (n : Nat) : ctx.undo_popN (n + 1) = (ctx.undo_pop.1).undo_popN n :=
  Function.iterate_succ_apply ..

theorem pushSeq_cons (x : String × Tool × Mesh) (xs : List (String × Tool × Mesh)) :
    ctx.pushSeq (x :: xs) =
      (({ ctx with tool := x.2.1, rftarget := x.2.2 }).undo_push x.1 false).pushSeq xs := rfl

theorem pushSeq_undo_depth (L : List (String × Tool × Mesh)) :
    ∀ ctx : RFContext Pt Nrm Idx D Ray Plane Pt2 Seg Tool Mesh,
      (ctx.pushSeq L).undo_depth = ctx.undo_depth := by
  induction L with
  | nil => intro ctx; rfl
  | cons x xs ih =>
    intro ctx
    rw [pushSeq_cons, ih]
    simp

/-- Dropping-to-capacity commutes over a prepended block: taking `d` of a
list whose tail was already cut at `e ≥ d` is taking `d` of the uncut
list. -/
theorem take_append_take {α : Type} (e : Nat) (l : List α) :
    ∀ (A : List α) (d : Nat), d ≤ e → (A ++ l.take e).take d = (A ++ l).take d := by
  intro A
  induction A with
  | nil =>
    intro d hd
    simp only [List.nil_append, List.take_take]
    rw [Nat.min_eq_left hd]
  | cons a A ih =>
    intro d hd
    cases d with
    | zero => simp
    | succ d =>
      simp only [List.cons_append, List.take_succ_cons]
      rw [ih d (Nat.le_of_succ_le hd)]

/-- After a run of pushes, the undo stack holds the captured snapshots
(most recent first) on top of the starting stack, cut to capacity. -/
theorem pushSeq_undo (L : List (String × Tool × Mesh)) :
    ∀ ctx : RFContext Pt Nrm Idx D Ray Plane Pt2 Seg Tool Mesh,
      ctx.undo.length ≤ ctx.undo_depth →
      (ctx.pushSeq L).undo =
        (((L.map snapOf).reverse ++ ctx.undo).take ctx.undo_depth) := by
  induction L with
  | nil =>
    intro ctx h
    simp only [pushSeq, List.foldl_nil, List.map_nil, List.reverse_nil, List.nil_append]
    exact (List.take_of_length_le h).symm
  | cons x xs ih =>
    intro ctx h
    rw [pushSeq_cons]
    set ctx' := ({ ctx with tool := x.2.1, rftarget := x.2.2 }).undo_push x.1 false with hctx'
    have hundo' : ctx'.undo = (snapOf x :: ctx.undo).take ctx.undo_depth := by
      rw [hctx', undo_push_false_def]
      rfl
    have hdepth' : ctx'.undo_depth = ctx.undo_depth := by
      rw [hctx', undo_push_undo_depth]
    have hlen' : ctx'.undo.length ≤ ctx'.undo_depth := by
      rw [hundo', hdepth']
      exact List.length_take_le ..
    rw [ih ctx' hlen', hundo', hdepth']
    rw [take_append_take ctx.undo_depth (snapOf x :: ctx.undo) _ _ le_rfl]
    congr 1
    simp [List.append_assoc]

/-- After `n+1` pops, the live target mesh is the mesh stored in the
`(n+1)`-th snapshot from the top of the undo stack. -/
theorem undo_popN_rftarget (n : Nat) :
    ∀ (ctx : RFContext Pt Nrm Idx D Ray Plane Pt2 Seg Tool Mesh) (d0 : UndoState Tool Mesh),
      n < ctx.undo.length → (ctx.undo_popN (n + 1)).rftarget = (ctx.undo.getD n d0).rftarget := by
  induction n with
  | zero =>
    intro ctx d0 h
    cases hu : ctx.undo with
    | nil => rw [hu] at h; simp at h
    | cons s rest =>
      rw [undo_popN_succ]
      show (ctx.undo_pop.1).rftarget = _
      rw [(undo_pop_cons s rest hu).1]
      simp
  | succ n ih =>
    intro ctx d0 h
    cases hu : ctx.undo with
    | nil => rw [hu] at h; simp at h
    | cons s rest =>
      rw [undo_popN_succ]
      have h1 : (ctx.undo_pop.1).undo = rest := (undo_pop_cons s rest hu).2.2.1
      have h2 : n < (ctx.undo_pop.1).undo.length := by
        rw [h1]
        rw [hu] at h
        simpa using Nat.lt_of_succ_lt_succ h
      rw [ih (ctx.undo_pop.1) d0 h2, h1, List.getD_cons_succ]

/-! Invariant machinery for the stack bound: every history operation
preserves `len(undo) + len(redo) ≤ undo_depth` (and never touches
`undo_depth` itself).  The sum is the right invariant because `redo_pop`
appends to `undo` without an eviction check: the appended entry is paid
for by the entry popped off `redo`. -/

theorem applyHistOp_undo_depth (op : HistOp Tool Mesh) :
    (ctx.applyHistOp op).undo_depth = ctx.undo_depth := by
  cases op <;> simp [applyHistOp]

theorem applyHistOp_len (op : HistOp Tool Mesh)
    (h : ctx.undo.length + ctx.redo.length ≤ ctx.undo_depth) :
    (ctx.applyHistOp op).undo.length + (ctx.applyHistOp op).redo.length ≤ ctx.undo_depth := by
  cases op with
  | push a r =>
    show (ctx.undo_push a r).undo.length + (ctx.undo_push a r).redo.length ≤ _
    unfold undo_push
    split
    · exact h
    · simp
  | pop =>
    show (ctx.undo_pop.1).undo.length + (ctx.undo_pop.1).redo.length ≤ _
    cases hu : ctx.undo with
    | nil => rw [hu] at h; simpa [undo_pop, hu] using h
    | cons s rest =>
      rw [hu] at h; simp only [List.length_cons] at h
      simp only [undo_pop, hu]
      simp
      omega
  | cancel =>
    show (ctx.undo_cancel.1).undo.length + (ctx.undo_cancel.1).redo.length ≤ _
    cases hu : ctx.undo with
    | nil => rw [hu] at h; simpa [undo_cancel, hu] using h
    | cons s rest =>
      rw [hu] at h; simp only [List.length_cons] at h
      simp only [undo_cancel, hu]
      simp
      omega
  | redoPop =>
    show (ctx.redo_pop.1).undo.length + (ctx.redo_pop.1).redo.length ≤ _
    cases hr : ctx.redo with
    | nil => rw [hr] at h; simpa [redo_pop, hr] using h
    | cons s rest =>
      rw [hr] at h; simp only [List.length_cons] at h
      simp only [redo_pop, hr]
      simp
      omega
  | edit t m => exact h

theorem runHistOps_undo_depth (ops : List (HistOp Tool Mesh)) :
    ∀ ctx : RFContext Pt Nrm Idx D Ray Plane Pt2 Seg Tool Mesh,
      (ctx.runHistOps ops).undo_depth = ctx.undo_depth := by
  induction ops with
  | nil => intro ctx; rfl
  | cons op ops ih =>
    intro ctx
    show ((ctx.applyHistOp op).runHistOps ops).undo_depth = _
    rw [ih, applyHistOp_undo_depth]

theorem runHistOps_len (ops : List (HistOp Tool Mesh)) :
    ∀ ctx : RFContext Pt Nrm Idx D Ray Plane Pt2 Seg Tool Mesh,
      ctx.undo.length + ctx.redo.length ≤ ctx.undo_depth →
      (ctx.runHistOps ops).undo.length + (ctx.runHistOps ops).redo.length ≤ ctx.undo_depth := by
  induction ops with
  | nil => intro ctx h; exact h
  | cons op ops ih =>
    intro ctx h
    show ((ctx.applyHistOp op).runHistOps ops).undo.length + _ ≤ _
    have hd : (ctx.applyHistOp op).undo_depth = ctx.undo_depth := applyHistOp_undo_depth op
    have h' : (ctx.applyHistOp op).undo.length + (ctx.applyHistOp op).redo.length ≤
        (ctx.applyHistOp op).undo_depth := by rw [hd]; exact applyHistOp_len op h
    have := ih (ctx.applyHistOp op) h'
    rw [hd] at this
    exact this

end RFContext

/-! ## Claim theorems -/

/-- C1.  Snapshot fidelity of the history: starting from a fresh session
(empty undo stack), after any sequence of `N` `undo_push` calls
(`repeatable=False`, `N ≤ undo_depth`, with the tool and target mesh
drifting arbitrarily between the pushes) followed by `M ≤ N` `undo_pop`
calls (`1 ≤ M`), the live target mesh equals the mesh captured immediately
before the `(N-M+1)`-th push (the `(N-M)`-th element of the run,
0-indexed).  Moreover a stored snapshot is a deep copy — mutating the live
mesh after the pushes changes no stored snapshot — and `undo_pop` on an
empty undo stack changes nothing. -/
theorem undo_history_snapshot_fidelity
    {Pt Nrm Idx D Ray Plane Pt2 Seg Tool Mesh : Type} [DecidableEq Tool]
    (ctx0 : RFContext Pt Nrm Idx D Ray Plane Pt2 Seg Tool Mesh)
    (L : List (String × Tool × Mesh)) (M : Nat) (dflt : String × Tool × Mesh)
    (h0 : ctx0.undo = []) (hN : L.length ≤ ctx0.undo_depth)
    (hM1 : 1 ≤ M) (hMN : M ≤ L.length) :
    ((ctx0.pushSeq L).undo_popN M).rftarget = (L.getD (L.length - M) dflt).2.2
    ∧ (∀ m' : Mesh, ({ ctx0.pushSeq L with rftarget := m' }).undo = (ctx0.pushSeq L).undo)
    ∧ (∀ ctx : RFContext Pt Nrm Idx D Ray Plane Pt2 Seg Tool Mesh,
        ctx.undo = [] → ctx.undo_pop = (ctx, none)) := by
  refine ⟨?_, fun m' => rfl, fun ctx h => by unfold RFContext.undo_pop; rw [h]⟩
  obtain ⟨m, rfl⟩ : ∃ m, M = m + 1 := ⟨M - 1, by omega⟩
  have hundo : (ctx0.pushSeq L).undo = (L.map RFContext.snapOf).reverse := by
    rw [RFContext.pushSeq_undo L ctx0 (by rw [h0]; exact Nat.zero_le _), h0]
    rw [List.append_nil]
    exact List.take_of_length_le (by simpa using hN)
  have hm : m < L.length := by omega
  have hmlen : m < (ctx0.pushSeq L).undo.length := by rw [hundo]; simpa using hm
  rw [RFContext.undo_popN_rftarget m (ctx0.pushSeq L) (RFContext.snapOf dflt) hmlen, hundo]
  have hmrev : m < ((L.map RFContext.snapOf).reverse).length := by simpa using hm
  rw [List.getD_eq_getElem _ _ hmrev, List.getElem_reverse, List.getElem_map]
  have hidx : L.length - (m + 1) < L.length := by omega
  rw [List.getD_eq_getElem _ _ hidx]
  have : (L.map RFContext.snapOf).length - 1 - m = L.length - (m + 1) := by
    simp only [List.length_map]; omega
  simp only [this]
  rfl

/-- C1 witness: two pushes (meshes 10 then 20) followed by two pops land
back on the first captured mesh, 10. -/
theorem undo_history_snapshot_fidelity_witness :
    ((testCtx.pushSeq [("a", 1, 10), ("b", 2, 20)]).undo_popN 2).rftarget = 10 :=
  (undo_history_snapshot_fidelity testCtx [("a", 1, 10), ("b", 2, 20)] 2 ("", 0, 0)
    rfl (by decide) (by decide) (by decide)).1.trans rfl

/-- C3 counterexample: with one snapshot on the undo stack, `undo_pop` pops
and restores, yet its Python return value is `None` (modelled `none`), not
`True` — the functions end in bare `return` statements, so the claimed
boolean protocol does not exist in the code. -/
theorem history_ops_boolean_counterexample :
    (testCtx.undo_push "a" false).undo ≠ [] ∧
    ((testCtx.undo_push "a" false).undo_pop).2 = none ∧
    ((none : Option Bool) ≠ some true) := by
  exact ⟨by decide, rfl, by decide⟩

/-- C3 amended: `undo_pop`, `undo_cancel` and `redo_pop` always return
`None` (they have no return value); an empty stack is silently ignored with
no state change at all; a non-empty stack is popped and the snapshot
restored (for `undo_pop`, also capturing the pre-pop state onto redo). -/
theorem history_ops_return_none
    {Pt Nrm Idx D Ray Plane Pt2 Seg Tool Mesh : Type} [DecidableEq Tool]
    (ctx : RFContext Pt Nrm Idx D Ray Plane Pt2 Seg Tool Mesh) :
    (ctx.undo_pop.2 = none ∧ ctx.undo_cancel.2 = none ∧ ctx.redo_pop.2 = none)
    ∧ (ctx.undo = [] → ctx.undo_pop = (ctx, none) ∧ ctx.undo_cancel = (ctx, none))
    ∧ (ctx.redo = [] → ctx.redo_pop = (ctx, none))
    ∧ (∀ s rest, ctx.undo = s :: rest →
        ctx.undo_pop.1.rftarget = s.rftarget ∧ ctx.undo_pop.1.undo = rest ∧
          ctx.undo_pop.1.redo = ctx.create_state "undo" :: ctx.redo) := by
  refine ⟨⟨RFContext.undo_pop_snd, RFContext.undo_cancel_snd, RFContext.redo_pop_snd⟩, ?_, ?_, ?_⟩
  · intro h
    exact ⟨by unfold RFContext.undo_pop; rw [h], by unfold RFContext.undo_cancel; rw [h]⟩
  · intro h
    unfold RFContext.redo_pop; rw [h]
  · intro s rest h
    obtain ⟨h1, _, h3, h4, _⟩ := RFContext.undo_pop_cons s rest h
    exact ⟨h1, h3, h4⟩

/-- C3 witness: the empty-stack no-op and the pop-and-restore case on
concrete sessions. -/
theorem history_ops_return_none_witness :
    testCtx.undo_pop = (testCtx, none) ∧
    (testCtx.undo_push "a" false).undo_pop.1.undo = [] :=
  ⟨((history_ops_return_none testCtx).2.1 rfl).1,
    ((history_ops_return_none (testCtx.undo_push "a" false)).2.2.2
      { action := "a", tool := 0, rftarget := 0 } [] rfl).2.1⟩

/-- C5 counterexample: after `undo_push('A')`, `undo_push('B')`,
`undo_pop()`, the call `undo_push('A', repeatable=True)` matches the top of
the undo stack and takes the early-return branch, which happens *before*
`self.redo.clear()` — so the redo stack is NOT empty after this push,
contradicting the claim for repeatable pushes. -/
theorem undo_push_clears_redo_counterexample :
    ((((testCtx.undo_push "A" false).undo_push "B" false).undo_pop.1).undo_push "A" true).redo
      ≠ [] := by
  decide

/-- C5 amended: every `undo_push` that actually appends (its
repeatable-skip test is false — in particular every `repeatable=False`
push) leaves the redo stack empty, so an immediately following `redo_pop`
is a no-op returning `None`; a `repeatable=True` push whose action matches
the top of the undo stack skips entirely, leaving the session — including
any non-empty redo stack — unchanged. -/
theorem undo_push_clears_redo
    {Pt Nrm Idx D Ray Plane Pt2 Seg Tool Mesh : Type} [DecidableEq Tool]
    (ctx : RFContext Pt Nrm Idx D Ray Plane Pt2 Seg Tool Mesh)
    (action : String) (repeatable : Bool) :
    (ctx.undo_push_repeat action repeatable = false →
      (ctx.undo_push action repeatable).redo = [] ∧
      (ctx.undo_push action repeatable).redo_pop = (ctx.undo_push action repeatable, none))
    ∧ (ctx.undo_push_repeat action repeatable = true →
        ctx.undo_push action repeatable = ctx) := by
  constructor
  · intro h
    have hdef : (ctx.undo_push action repeatable).redo = [] := by
      unfold RFContext.undo_push; rw [h]; simp
    refine ⟨hdef, ?_⟩
    unfold RFContext.redo_pop
    rw [hdef]
  · intro h
    unfold RFContext.undo_push; rw [h]; simp

/-- C5 witness: a plain push leaves redo empty and redo_pop inert. -/
theorem undo_push_clears_redo_witness :
    (testCtx.undo_push "a" false).redo = [] ∧
    (testCtx.undo_push "a" false).redo_pop = (testCtx.undo_push "a" false, none) :=
  (undo_push_clears_redo testCtx "a" false).1 rfl

/-- C6: a `undo_push(action, repeatable=True)` made while the top of the
undo stack already carries the same action label is a complete no-op — the
session (stacks, mesh, tool, everything) is returned unchanged. -/
theorem undo_push_repeatable_idempotent
    {Pt Nrm Idx D Ray Plane Pt2 Seg Tool Mesh : Type} [DecidableEq Tool]
    (ctx : RFContext Pt Nrm Idx D Ray Plane Pt2 Seg Tool Mesh) (action : String)
    (h : ∃ top rest, ctx.undo = top :: rest ∧ top.action = action) :
    ctx.undo_push action true = ctx := by
  obtain ⟨top, rest, hu, ha⟩ := h
  unfold RFContext.undo_push RFContext.undo_push_repeat
  rw [hu]
  simp [ha]

/-- C6 witness: re-pushing the action on top is the identity. -/
theorem undo_push_repeatable_idempotent_witness :
    (testCtx.undo_push "a" false).undo_push "a" true = testCtx.undo_push "a" false :=
  undo_push_repeatable_idempotent _ "a" ⟨⟨"a", 0, 0⟩, [], rfl, rfl⟩

/-- C7: undo/redo round-trip — for any session with a non-empty undo
stack, `undo_pop` followed by `redo_pop` restores exactly the pre-undo
target mesh and active tool, whatever the mesh and tool state. -/
theorem undo_redo_round_trip
    {Pt Nrm Idx D Ray Plane Pt2 Seg Tool Mesh : Type} [DecidableEq Tool]
    (ctx : RFContext Pt Nrm Idx D Ray Plane Pt2 Seg Tool Mesh) (h : ctx.undo ≠ []) :
    ((ctx.undo_pop.1).redo_pop.1).rftarget = ctx.rftarget ∧
    ((ctx.undo_pop.1).redo_pop.1).tool = ctx.tool := by
  cases hu : ctx.undo with
  | nil => exact absurd hu h
  | cons s rest =>
    have hredo : (ctx.undo_pop.1).redo = ctx.create_state "undo" :: ctx.redo :=
      (RFContext.undo_pop_cons s rest hu).2.2.2.1
    obtain ⟨hr, ht, _, _, _⟩ := RFContext.redo_pop_cons _ _ hredo
    rw [hr, ht]
    exact ⟨rfl, rfl⟩

/-- C4: bounded undo stack — starting from empty stacks, after every
sequence of `undo_push`, `undo_pop`, `redo_pop` and `undo_cancel`
operations (with the session state drifting arbitrarily in between),
`len(undo) ≤ undo_depth` holds; this holds even though `redo_pop` appends
to `undo` with no eviction check, because the history operations preserve
`len(undo) + len(redo) ≤ undo_depth`.  Moreover a push onto a stack at
capacity evicts exactly the oldest snapshot (FIFO eviction at the far
end): the new stack is the fresh snapshot on top of the old stack with its
last (oldest) entry dropped. -/
theorem undo_stack_bounded
    {Pt Nrm Idx D Ray Plane Pt2 Seg Tool Mesh : Type} [DecidableEq Tool]
    (ctx0 : RFContext Pt Nrm Idx D Ray Plane Pt2 Seg Tool Mesh)
    (ops : List (HistOp Tool Mesh)) (h0 : ctx0.undo = []) (h0' : ctx0.redo = []) :
    (ctx0.runHistOps ops).undo.length ≤ ctx0.undo_depth
    ∧ (∀ (ctx : RFContext Pt Nrm Idx D Ray Plane Pt2 Seg Tool Mesh) (a : String),
        1 ≤ ctx.undo_depth → ctx.undo.length = ctx.undo_depth →
        (ctx.undo_push a false).undo = ctx.create_state a :: ctx.undo.dropLast) := by
  constructor
  · have h := RFContext.runHistOps_len ops ctx0 (by rw [h0, h0']; simp)
    omega
  · intro ctx a h1 hlen
    rw [RFContext.undo_push_false_def]
    show List.take ctx.undo_depth (ctx.create_state a :: ctx.undo) = _
    obtain ⟨d, hd⟩ : ∃ d, ctx.undo_depth = d + 1 := ⟨ctx.undo_depth - 1, by omega⟩
    rw [hd, List.take_succ_cons, List.dropLast_eq_take, hlen, hd]
    simp

/-- C4 witness: on a capacity-2 session, three pushes, a pop and a
redo_pop leave the stack within bound (length 2). -/
theorem undo_stack_bounded_witness :
    (testCtxD2.runHistOps
        [HistOp.push "a" false, HistOp.push "b" false, HistOp.push "c" false,
          HistOp.pop, HistOp.redoPop]).undo.length ≤ testCtxD2.undo_depth
    ∧ (testCtxD2.runHistOps
        [HistOp.push "a" false, HistOp.push "b" false, HistOp.push "c" false,
          HistOp.pop, HistOp.redoPop]).undo.length = 2 :=
  ⟨(undo_stack_bounded testCtxD2
      [HistOp.push "a" false, HistOp.push "b" false, HistOp.push "c" false,
        HistOp.pop, HistOp.redoPop] rfl rfl).1, rfl⟩

/-- C7 witness: on the mutated one-snapshot session the round trip gives
back mesh 5 and tool 7. -/
theorem undo_redo_round_trip_witness :
    ((roundCtx.undo_pop.1).redo_pop.1).rftarget = 5 ∧
    ((roundCtx.undo_pop.1).redo_pop.1).tool = 7 := by
  have h := undo_redo_round_trip roundCtx (by decide)
  exact ⟨h.1, h.2⟩

/-! ## Lemmas relating the raycast reduction loop to the spec's rule -/

theorem rayStep_none_right [LinearOrder D] (b : Option (Hit Pt Nrm Idx D)) :
    rayStep b none = b := by
  cases b <;> rfl

theorem rayStep_some_right [LinearOrder D] (b : Option (Hit Pt Nrm Idx D))
    (xx : Hit Pt Nrm Idx D) :
    rayStep b (some xx) = some (match b with | none => xx | some k => keepMin k xx) := by
  cases b with
  | none => rfl
  | some bb =>
    show (if xx.d < bb.d then some xx else some bb) = some (if xx.d < bb.d then xx else bb)
    split <;> rfl

theorem specReduce_concat_none [LinearOrder D] (rs : List (Option (Hit Pt Nrm Idx D))) :
    specReduce (rs ++ [none]) = specReduce rs := by
  unfold specReduce
  rw [List.filterMap_append]
  simp

theorem specReduce_concat_some [LinearOrder D] (rs : List (Option (Hit Pt Nrm Idx D)))
    (xx : Hit Pt Nrm Idx D) :
    specReduce (rs ++ [some xx]) =
      some (match specReduce rs with | none => xx | some k => keepMin k xx) := by
  unfold specReduce
  rw [List.filterMap_append]
  cases hfm : rs.filterMap id with
  | nil => simp
  | cons h t => simp [List.foldl_append]

/-- The code's reduction loop equals the spec's reduction rule. -/
theorem rayFold_eq_specReduce [LinearOrder D] (results : List (Option (Hit Pt Nrm Idx D))) :
    results.foldl rayStep none = specReduce results := by
  induction results using List.reverseRecOn with
  | nil => rfl
  | append_singleton rs x ih =>
    rw [List.foldl_append, List.foldl_cons, List.foldl_nil, ih]
    cases x with
    | none => rw [rayStep_none_right, specReduce_concat_none]
    | some xx => rw [rayStep_some_right, specReduce_concat_some]

theorem foldl_keepMin_le [LinearOrder D] (t : List (Hit Pt Nrm Idx D)) :
    ∀ h : Hit Pt Nrm Idx D, ∀ x ∈ h :: t, (t.foldl keepMin h).d ≤ x.d := by
  induction t with
  | nil =>
    intro h x hx
    rw [List.mem_singleton] at hx
    subst hx
    exact le_refl _
  | cons y t ih =>
    intro h x hx
    have hkh : (keepMin h y).d ≤ h.d := by
      unfold keepMin; split
      · exact le_of_lt (by assumption)
      · exact le_refl _
    have hky : (keepMin h y).d ≤ y.d := by
      unfold keepMin; split
      · exact le_refl _
      · exact not_lt.mp (by assumption)
    have hfold : (t.foldl keepMin (keepMin h y)).d ≤ (keepMin h y).d :=
      ih (keepMin h y) _ (List.mem_cons_self _ _)
    rw [List.mem_cons] at hx
    rcases hx with rfl | hx
    · exact le_trans hfold hkh
    · rw [List.mem_cons] at hx
      rcases hx with rfl | hx
      · exact le_trans hfold hky
      · exact ih (keepMin h y) x (List.mem_cons_of_mem _ hx)

theorem foldl_keepMin_mem [LinearOrder D] (t : List (Hit Pt Nrm Idx D)) :
    ∀ h : Hit Pt Nrm Idx D, t.foldl keepMin h ∈ h :: t := by
  induction t with
  | nil => intro h; simp
  | cons y t ih =>
    intro h
    show t.foldl keepMin (keepMin h y) ∈ h :: y :: t
    rcases List.mem_cons.mp (ih (keepMin h y)) with heq | hmem
    · rw [heq]
      unfold keepMin; split
      · exact List.mem_cons_of_mem _ (List.mem_cons_self _ _)
      · exact List.mem_cons_self _ _
    · exact List.mem_cons_of_mem _ (List.mem_cons_of_mem _ hmem)

/-- The spec reduction returns a reported hit of minimal distance. -/
theorem specReduce_min [LinearOrder D] (results : List (Option (Hit Pt Nrm Idx D)))
    (k : Hit Pt Nrm Idx D) (h : specReduce results = some k) :
    k ∈ results.filterMap id ∧ ∀ x ∈ results.filterMap id, k.d ≤ x.d := by
  unfold specReduce at h
  cases hfm : results.filterMap id with
  | nil => rw [hfm] at h; simp at h
  | cons hd t =>
    rw [hfm] at h
    have hk : t.foldl keepMin hd = k := by simpa using h
    subst hk
    exact ⟨hfm ▸ foldl_keepMin_mem t hd, fun x hx => foldl_keepMin_le t hd x (hfm ▸ hx)⟩

/-- The spec reduction reports no hit exactly when every source misses. -/
theorem specReduce_eq_none_iff [LinearOrder D] (results : List (Option (Hit Pt Nrm Idx D))) :
    specReduce results = none ↔ ∀ r ∈ results, r = none := by
  unfold specReduce
  cases hfm : results.filterMap id with
  | nil =>
    constructor
    · intro _ r hr
      have := List.filterMap_eq_nil_iff.mp hfm r hr
      simpa using this
    · intro _
      rfl
  | cons h t =>
    constructor
    · intro hx
      cases hx
    · intro hall
      exfalso
      have h0 : results.filterMap id = [] :=
        List.filterMap_eq_nil_iff.mpr (fun a ha => by rw [hall a ha]; rfl)
      rw [h0] at hfm
      cases hfm

/-- C2: the QueryAggregator reduction rule of `raycast_sources_Ray` — the
loop's result equals the spec's reduction (strictly smallest reported
distance wins, ties to the earliest source, skipping no-hit reports); a
no-hit report never replaces a kept hit; if every source misses the result
is the no-hit 4-tuple; any reported result is a reported hit of minimal
distance; and on the spec's test vectors: distances `{none, 5, 2}` give
the distance-2 hit of source 2, and a 5-vs-5 tie gives the first source's
hit. -/
theorem raycast_sources_Ray_reduction
    {Pt Nrm Idx D Ray Plane Pt2 Seg Tool Mesh : Type} [LinearOrder D]
    (ctx : RFContext Pt Nrm Idx D Ray Plane Pt2 Seg Tool Mesh) (ray : Ray) :
    ctx.raycast_sources_Ray ray
        = hitTuple (specReduce (ctx.rfsources.map (fun s => s.raycast ray)))
    ∧ (∀ b : Hit Pt Nrm Idx D, rayStep (some b) none = some b)
    ∧ ((∀ s ∈ ctx.rfsources, s.raycast ray = none) →
        ctx.raycast_sources_Ray ray = (none, none, none, none))
    ∧ (∀ k, specReduce (ctx.rfsources.map (fun s => s.raycast ray)) = some k →
        (∃ s ∈ ctx.rfsources, s.raycast ray = some k)
        ∧ ∀ s ∈ ctx.rfsources, ∀ x, s.raycast ray = some x → k.d ≤ x.d)
    ∧ exCtx2.raycast_sources_Ray 0 = (some 0, some 0, some 2, some (2 : ℚ))
    ∧ exCtxTie.raycast_sources_Ray 0 = (some 0, some 0, some 1, some (5 : ℚ)) := by
  have hfold : ctx.raycast_sources_Ray ray
      = hitTuple (specReduce (ctx.rfsources.map (fun s => s.raycast ray))) := by
    unfold RFContext.raycast_sources_Ray
    rw [← List.foldl_map, rayFold_eq_specReduce]
  refine ⟨hfold, fun b => rfl, ?_, ?_, by decide, by decide⟩
  · intro hmiss
    rw [hfold, (specReduce_eq_none_iff _).mpr ?_]
    · rfl
    · intro r hr
      rcases List.mem_map.mp hr with ⟨s, hs, rfl⟩
      exact hmiss s hs
  · intro k hk
    obtain ⟨hmem, hmin⟩ := specReduce_min _ k hk
    constructor
    · rcases List.mem_filterMap.mp hmem with ⟨a, ha, hq⟩
      rcases List.mem_map.mp ha with ⟨s, hs, rfl⟩
      exact ⟨s, hs, hq⟩
    · intro s hs x hx
      refine hmin x (List.mem_filterMap.mpr ⟨some x, ?_, rfl⟩)
      exact List.mem_map.mpr ⟨s, hs, hx⟩

/-- C2 witness: the spec's three-source test vector evaluates to the
distance-2 hit. -/
theorem raycast_sources_Ray_reduction_witness :
    exCtx2.raycast_sources_Ray 0 = (some 0, some 0, some 2, some (2 : ℚ)) :=
  (raycast_sources_Ray_reduction exCtx2 0).2.2.2.2.1

/-! ## Lemmas about the crawl's nearest-hit-with-owner loop -/

theorem crawlStep_fst_none [LinearOrder D] (ray : Ray)
    (acc : Option (Hit Pt Nrm Idx D) × Option (RFSource Pt Nrm Idx D Ray Plane Seg))
    (s : RFSource Pt Nrm Idx D Ray Plane Seg) (h : acc.1 = none) :
    crawlStep ray acc s = (s.raycast ray, some s) := by
  obtain ⟨a1, a2⟩ := acc
  cases a1 with
  | none => rfl
  | some bb => exact absurd h (by simp)

theorem crawlStep_fst_some_miss [LinearOrder D] (ray : Ray)
    (acc : Option (Hit Pt Nrm Idx D) × Option (RFSource Pt Nrm Idx D Ray Plane Seg))
    (s : RFSource Pt Nrm Idx D Ray Plane Seg) (bb : Hit Pt Nrm Idx D)
    (h1 : acc.1 = some bb) (h2 : s.raycast ray = none) :
    crawlStep ray acc s = (some bb, acc.2) := by
  obtain ⟨a1, a2⟩ := acc
  cases a1 with
  | none => exact absurd h1 (by simp)
  | some bb' =>
    obtain rfl : bb' = bb := by simpa using h1
    simp [crawlStep, h2]

theorem crawlStep_fst_some_hit [LinearOrder D] (ray : Ray)
    (acc : Option (Hit Pt Nrm Idx D) × Option (RFSource Pt Nrm Idx D Ray Plane Seg))
    (s : RFSource Pt Nrm Idx D Ray Plane Seg) (bb hh : Hit Pt Nrm Idx D)
    (h1 : acc.1 = some bb) (h2 : s.raycast ray = some hh) :
    crawlStep ray acc s = if hh.d < bb.d then (some hh, some s) else acc := by
  obtain ⟨a1, a2⟩ := acc
  cases a1 with
  | none => exact absurd h1 (by simp)
  | some bb' =>
    obtain rfl : bb' = bb := by simpa using h1
    simp [crawlStep, h2]

theorem crawl_fold_none_iff [LinearOrder D] (ray : Ray)
    (S : List (RFSource Pt Nrm Idx D Ray Plane Seg)) :
    (S.foldl (crawlStep ray) (none, none)).1 = none ↔ ∀ s ∈ S, s.raycast ray = none := by
  induction S using List.reverseRecOn with
  | nil => simp
  | append_singleton S x ih =>
    rw [List.foldl_append, List.foldl_cons, List.foldl_nil]
    cases hb : (S.foldl (crawlStep ray) (none, none)).1 with
    | none =>
      rw [crawlStep_fst_none ray _ x hb]
      constructor
      · intro hx s hs
        rcases List.mem_append.mp hs with h | h
        · exact ih.mp hb s h
        · rw [List.mem_singleton] at h
          subst h
          exact hx
      · intro hall
        exact hall x (List.mem_append.mpr (Or.inr (List.mem_singleton_self x)))
    | some bb =>
      have hsome : ∃ k, (crawlStep ray (S.foldl (crawlStep ray) (none, none)) x).1 = some k := by
        cases hx : x.raycast ray with
        | none => exact ⟨bb, by rw [crawlStep_fst_some_miss ray _ x bb hb hx]⟩
        | some hh =>
          rw [crawlStep_fst_some_hit ray _ x bb hh hb hx]
          by_cases hcmp : hh.d < bb.d
          · rw [if_pos hcmp]; exact ⟨hh, rfl⟩
          · rw [if_neg hcmp]; exact ⟨bb, hb⟩
      constructor
      · intro h
        obtain ⟨k, hk⟩ := hsome
        rw [hk] at h
        cases h
      · intro hall
        exfalso
        have : (S.foldl (crawlStep ray) (none, none)).1 = none :=
          ih.mpr (fun s hs => hall s (List.mem_append.mpr (Or.inl hs)))
        rw [this] at hb
        cases hb

theorem crawl_fold_owner_of_hit [LinearOrder D] (ray : Ray)
    (S : List (RFSource Pt Nrm Idx D Ray Plane Seg)) (k : Hit Pt Nrm Idx D)
    (h : (S.foldl (crawlStep ray) (none, none)).1 = some k) :
    ∃ src, (S.foldl (crawlStep ray) (none, none)).2 = some src ∧ src ∈ S ∧
      src.raycast ray = some k ∧
      ∀ s ∈ S, ∀ x, s.raycast ray = some x → k.d ≤ x.d := by
  induction S using List.reverseRecOn generalizing k with
  | nil => simp at h
  | append_singleton S x ih =>
    rw [List.foldl_append, List.foldl_cons, List.foldl_nil] at h ⊢
    cases hb : (S.foldl (crawlStep ray) (none, none)).1 with
    | none =>
      rw [crawlStep_fst_none ray _ x hb] at h ⊢
      have hxk : x.raycast ray = some k := h
      refine ⟨x, rfl, List.mem_append.mpr (Or.inr (List.mem_singleton_self x)), hxk, ?_⟩
      intro s hs y hy
      rcases List.mem_append.mp hs with hsS | hsx
      · exact absurd hy (by rw [(crawl_fold_none_iff ray S).mp hb s hsS]; exact fun hc => by cases hc)
      · rw [List.mem_singleton] at hsx
        subst hsx
        rw [hxk] at hy
        cases hy
        exact le_refl _
    | some bb =>
      obtain ⟨src0, hs2, hsmem, hsray, hmin⟩ := ih bb hb
      cases hx : x.raycast ray with
      | none =>
        rw [crawlStep_fst_some_miss ray _ x bb hb hx] at h ⊢
        cases h
        refine ⟨src0, hs2, List.mem_append.mpr (Or.inl hsmem), hsray, ?_⟩
        intro s hs y hy
        rcases List.mem_append.mp hs with hsS | hsx
        · exact hmin s hsS y hy
        · rw [List.mem_singleton] at hsx
          subst hsx
          rw [hx] at hy
          cases hy
      | some hh =>
        rw [crawlStep_fst_some_hit ray _ x bb hh hb hx] at h ⊢
        by_cases hcmp : hh.d < bb.d
        · rw [if_pos hcmp] at h ⊢
          cases h
          refine ⟨x, rfl, List.mem_append.mpr (Or.inr (List.mem_singleton_self x)), hx, ?_⟩
          intro s hs y hy
          rcases List.mem_append.mp hs with hsS | hsx
          · exact le_trans (le_of_lt hcmp) (hmin s hsS y hy)
          · rw [List.mem_singleton] at hsx
            subst hsx
            rw [hx] at hy
            cases hy
            exact le_refl _
        · rw [if_neg hcmp] at h ⊢
          rw [hb] at h
          cases h
          refine ⟨src0, hs2, List.mem_append.mpr (Or.inl hsmem), hsray, ?_⟩
          intro s hs y hy
          rcases List.mem_append.mp hs with hsS | hsx
          · exact hmin s hsS y hy
          · rw [List.mem_singleton] at hsx
            subst hsx
            rw [hx] at hy
            cases hy
            exact not_lt.mp hcmp

/-- C9: crawling on a total miss is empty and raise-free (both operations
are total functions): `plane_intersection_crawl` returns `[]` when the ray
hits no source; `plane_intersections_crawl` returns `[]` when the plane
intersects no source; and when some source is hit,
`plane_intersection_crawl` delegates to the plane-intersection routine
(walk or non-walk, as requested) of exactly a source owning a nearest hit. -/
theorem plane_crawl_miss_empty_and_delegates
    {Pt Nrm Idx D Ray Plane Pt2 Seg Tool Mesh : Type} [LinearOrder D]
    (ctx : RFContext Pt Nrm Idx D Ray Plane Pt2 Seg Tool Mesh)
    (ray : Ray) (plane : Plane) (walk : Bool) :
    ((∀ s ∈ ctx.rfsources, s.raycast ray = none) →
      ctx.plane_intersection_crawl ray plane walk = [])
    ∧ ((∀ s ∈ ctx.rfsources, s.plane_intersections_crawl plane = []) →
        ctx.plane_intersections_crawl plane = [])
    ∧ ((∃ s ∈ ctx.rfsources, s.raycast ray ≠ none) →
        ∃ k src, src ∈ ctx.rfsources ∧ src.raycast ray = some k
          ∧ (∀ s ∈ ctx.rfsources, ∀ x, s.raycast ray = some x → k.d ≤ x.d)
          ∧ ctx.plane_intersection_crawl ray plane walk =
              (if walk then src.plane_intersection_walk_crawl ray plane
               else src.plane_intersection_crawl ray plane)) := by
  refine ⟨?_, ?_, ?_⟩
  · intro h
    have h1 := (crawl_fold_none_iff ray ctx.rfsources).mpr h
    have hpair : ctx.rfsources.foldl (crawlStep ray) (none, none) =
        (none, (ctx.rfsources.foldl (crawlStep ray) (none, none)).2) :=
      Prod.ext h1 rfl
    unfold RFContext.plane_intersection_crawl
    rw [hpair]
  · intro h
    unfold RFContext.plane_intersections_crawl
    rw [List.flatten_eq_nil_iff]
    intro l hl
    rcases List.mem_map.mp hl with ⟨s, hs, rfl⟩
    exact h s hs
  · rintro ⟨s0, hs0, hne⟩
    have h1 : (ctx.rfsources.foldl (crawlStep ray) (none, none)).1 ≠ none := by
      intro hn
      exact hne ((crawl_fold_none_iff ray ctx.rfsources).mp hn s0 hs0)
    obtain ⟨k, hk⟩ := Option.ne_none_iff_exists'.mp h1
    obtain ⟨src, h2, hmem, hray, hmin⟩ := crawl_fold_owner_of_hit ray ctx.rfsources k hk
    refine ⟨k, src, hmem, hray, hmin, ?_⟩
    have hpair : ctx.rfsources.foldl (crawlStep ray) (none, none) = (some k, some src) :=
      Prod.ext hk h2
    unfold RFContext.plane_intersection_crawl
    rw [hpair]

/-- C9 witness: on the all-miss session the crawl is empty; on the
three-source session the ray hits, and delegation to the nearest-hit owner
holds. -/
theorem plane_crawl_miss_empty_and_delegates_witness :
    exCtxMiss.plane_intersection_crawl 0 0 false = [] ∧
    (∃ k src, src ∈ exCtx2.rfsources ∧ src.raycast 0 = some k
      ∧ (∀ s ∈ exCtx2.rfsources, ∀ x, s.raycast 0 = some x → k.d ≤ x.d)
      ∧ exCtx2.plane_intersection_crawl 0 0 false =
          (if false then src.plane_intersection_walk_crawl 0 0
           else src.plane_intersection_crawl 0 0)) :=
  ⟨(plane_crawl_miss_empty_and_delegates exCtxMiss 0 0 false).1 (by decide),
    (plane_crawl_miss_empty_and_delegates exCtx2 0 0 false).2.2
      ⟨srcHit 2 2,
        show srcHit 2 2 ∈ [srcMiss, srcHit 5 1, srcHit 2 2] from
          List.mem_cons_of_mem _ (List.mem_cons_of_mem _ (List.mem_cons_self _ _)),
        by decide⟩⟩

/-- C10: interface shape of the `_all` raycast — for `xy = None`,
`raycast_sources_Point2D_all` returns the 4-tuple `(None, None, None,
None)`, while for any other `xy` it returns a list of hits, so the result
shape differs between the unmapped-screen-point case and every other case;
`raycast_sources_Point2D`, in contrast, returns the same 4-tuple for a
`None` input as for a ray that misses every source. -/
theorem raycast_Point2D_all_shape
    {Pt Nrm Idx D Ray Plane Pt2 Seg Tool Mesh : Type} [LinearOrder D]
    (ctx : RFContext Pt Nrm Idx D Ray Plane Pt2 Seg Tool Mesh) :
    ctx.raycast_sources_Point2D_all none = RaycastAllResult.noneTuple
    ∧ (∀ xy : Pt2, ctx.raycast_sources_Point2D_all (some xy) =
        RaycastAllResult.hits (ctx.raycast_sources_Ray_all (ctx.Point2D_to_Ray xy)))
    ∧ (∀ l : List (Hit Pt Nrm Idx D),
        (RaycastAllResult.noneTuple : RaycastAllResult Pt Nrm Idx D) ≠ RaycastAllResult.hits l)
    ∧ ctx.raycast_sources_Point2D none = (none, none, none, none)
    ∧ (∀ xy : Pt2, (∀ s ∈ ctx.rfsources, s.raycast (ctx.Point2D_to_Ray xy) = none) →
        ctx.raycast_sources_Point2D (some xy) = (none, none, none, none)) := by
  refine ⟨rfl, fun xy => rfl, ?_, rfl, ?_⟩
  · intro l h
    cases h
  intro xy hmiss
  show ctx.raycast_sources_Ray (ctx.Point2D_to_Ray xy) = _
  unfold RFContext.raycast_sources_Ray
  rw [← List.foldl_map, rayFold_eq_specReduce, (specReduce_eq_none_iff _).mpr ?_]
  · rfl
  · intro r hr
    rcases List.mem_map.mp hr with ⟨s, hs, rfl⟩
    exact hmiss s hs

/-- C10 witness: on the concrete session, `None` input gives the
`None`-tuple while a mapped point gives a (here empty) hit list, and the
quad-valued raycast coincides on both cases. -/
theorem raycast_Point2D_all_shape_witness :
    testCtx.raycast_sources_Point2D_all none = RaycastAllResult.noneTuple ∧
    testCtx.raycast_sources_Point2D_all (some 3) = RaycastAllResult.hits [] ∧
    testCtx.raycast_sources_Point2D none = (none, none, none, none) :=
  ⟨(raycast_Point2D_all_shape testCtx).1,
    (raycast_Point2D_all_shape testCtx).2.1 3,
    (raycast_Point2D_all_shape testCtx).2.2.2.1⟩

/-! ## Lemmas about the modal step -/

theorem modal_autosave_tool [DecidableEq Tool] [LinearOrder D]
    (ctx : RFContext Pt Nrm Idx D Ray Plane Pt2 Seg Tool Mesh) (a : ModalInput Pt2) :
    (ctx.modal_autosave a).tool = ctx.tool := by
  unfold RFContext.modal_autosave
  split
  · dsimp only
    split <;> rfl
  · rfl

theorem modal_autosave_nav [DecidableEq Tool] [LinearOrder D]
    (ctx : RFContext Pt Nrm Idx D Ray Plane Pt2 Seg Tool Mesh) (a : ModalInput Pt2) :
    (ctx.modal_autosave a).nav = ctx.nav := by
  unfold RFContext.modal_autosave
  split
  · dsimp only
    split <;> rfl
  · rfl

theorem modal_cache_tool [LinearOrder D]
    (ctx : RFContext Pt Nrm Idx D Ray Plane Pt2 Seg Tool Mesh) (a : ModalInput Pt2) :
    (ctx.modal_cache a).tool = ctx.tool := rfl

theorem modal_cache_nav [LinearOrder D]
    (ctx : RFContext Pt Nrm Idx D Ray Plane Pt2 Seg Tool Mesh) (a : ModalInput Pt2) :
    (ctx.modal_cache a).nav = ctx.nav := rfl

/-- C8 amended: whenever a modal event carries a navigation action (or the
navigation timer is still running with `nav` set), and the event is not
consumed by an earlier short-circuit of the modal step (the `tool help`
toggle, or a hover-consuming window-manager result), the modal step reports
pass-through, never invokes the current mode's handler, and leaves the
active tool unchanged — in particular a simultaneously asserted tool-switch
action does not switch the tool.  (The reserved `window actions` /
`autosave` pass-through branches are consistent with this conclusion, so no
hypothesis excludes them.) -/
theorem modal_navigation_passthrough
    {Pt Nrm Idx D Ray Plane Pt2 Seg Tool Mesh : Type} [LinearOrder D] [DecidableEq Tool]
    (ctx : RFContext Pt Nrm Idx D Ray Plane Pt2 Seg Tool Mesh) (a : ModalInput Pt2)
    (hhelp : a.pressed "tool help" = false) (hhover : a.wm_hover = false)
    (hnav : a.navigating = true ∨ (a.timer = true ∧ ctx.nav = true)) :
    (ctx.modal a).2.1 = ModalResult.passThrough
    ∧ (ctx.modal a).2.2 = false
    ∧ (ctx.modal a).1.tool = ctx.tool := by
  unfold RFContext.modal
  cases h1 : a.is_using "window actions" with
  | true => simp [h1, modal_cache_tool]
  | false =>
    cases h2 : a.is_using "autosave" with
    | true => simp [h1, h2, modal_cache_tool]
    | false =>
      have hnavc : (a.navigating
          || (a.timer && (((ctx.modal_cache a).modal_autosave a)).nav)) = true := by
        rcases hnav with h | ⟨ht, hn⟩
        · simp [h]
        · rw [modal_autosave_nav, modal_cache_nav]
          simp [ht, hn]
      simp [h1, h2, hhelp, hhover, hnavc, modal_autosave_tool, modal_cache_tool]

/-- C8 counterexample: an event that carries a navigation action but also
the `tool help` action is consumed by the help toggle (checked *before*
the navigation check), so the modal step returns the empty result set
(`stay`), not pass-through — the claim "whenever a modal event carries a
navigation action ... the modal step reports pass-through" is false as
stated.  (The mode handler is still not invoked, and the simultaneously
pressed tool-switch action `tool a` does not switch the tool.) -/
theorem modal_navigation_passthrough_counterexample :
    navHelpInput.navigating = true ∧
    (testCtx.modal navHelpInput).2.1 = ModalResult.stay ∧
    ModalResult.stay ≠ ModalResult.passThrough := by
  refine ⟨rfl, rfl, by decide⟩

/-- C8 witness: a navigation event carrying a tool-switch action (and no
earlier short-circuit) passes through, skips the handler, and leaves the
tool unchanged. -/
theorem modal_navigation_passthrough_witness :
    (testCtx.modal navToolInput).2.1 = ModalResult.passThrough
    ∧ (testCtx.modal navToolInput).2.2 = false
    ∧ (testCtx.modal navToolInput).1.tool = testCtx.tool :=
  modal_navigation_passthrough testCtx navToolInput rfl rfl (Or.inl rfl)

end RetopoFlow
